import Mathlib

/-
Verification of the PeppolService local-cloud core against its design
specification.  The Go sources are embedded shallowly: maps become
association lists, timers and goroutine effects become explicit state and
step relations, fallible calls return Option/Except, and machine time is a
Nat parameter.
-/

set_option linter.unusedVariables false

/-! ## Generic association-list helpers (Go maps) -/

/-- Lookup in an association list, modelling a read of a Go map. -/
def alookup {α β : Type} [DecidableEq α] : List (α × β) → α → Option β
  | [], _ => none
  | (k, v) :: rest, a => if k = a then some v else alookup rest a

/-- Lookup with a default value, modelling Go's zero-value map read. -/
def alookupD {α β : Type} [DecidableEq α] (l : List (α × β)) (a : α) (d : β) : β :=
  (alookup l a).getD d

/-- Insert or replace a binding, modelling a Go map assignment. -/
def aset {α β : Type} [DecidableEq α] : List (α × β) → α → β → List (α × β)
  | [], a, b => [(a, b)]
  | (k, v) :: rest, a, b => if k = a then (a, b) :: rest else (k, v) :: aset rest a b

/-- Remove a binding, modelling Go's delete on a map. -/
def aerase {α β : Type} [DecidableEq α] : List (α × β) → α → List (α × β)
  | [], _ => []
  | (k, v) :: rest, a => if k = a then rest else (k, v) :: aerase rest a

/-! ## Expiration scheduler (scheduler.go)

One-shot timers live in an arena list; their list index is their identity
(a Go *time.Timer pointer).  `taskMap` maps task ids to arena indices. -/

/-- One-shot timer: the deadline and job it was armed with, whether Stop was
called on it, and whether its callback has run. -/
structure Timer where
  deadline : Nat
  job : Nat
  stopped : Bool
  fired : Bool
deriving DecidableEq

/-- Scheduler state: timer arena plus the id-to-timer task map. -/
structure Scheduler where
  timers : List Timer
  taskMap : List (Int × Nat)
deriving DecidableEq

/-- NewScheduler returns a scheduler with an empty task map. -/
def newScheduler : Scheduler := { timers := [], taskMap := [] }

/-- Read the timer arena at an index. -/
def getNth : List Timer → Nat → Option Timer
  | [], _ => none
  | t :: _, 0 => some t
  | _ :: rest, n + 1 => getNth rest n

/-- Mark the timer at an index as stopped (Go timer.Stop). -/
def stopTimerAt : List Timer → Nat → List Timer
  | [], _ => []
  | t :: rest, 0 => { t with stopped := true } :: rest
  | t :: rest, n + 1 => t :: stopTimerAt rest n

/-- AddTask: if a timer exists for the id it is stopped, then a fresh timer
armed with the new deadline and job is installed under the id. -/
def Scheduler.AddTask (s : Scheduler) (deadline : Nat) (job : Nat) (id : Int) : Scheduler :=
  let ts :=
    match alookup s.taskMap id with
    | some i => stopTimerAt s.timers i
    | none => s.timers
  { timers := ts ++ [Timer.mk deadline job false false],
    taskMap := aset s.taskMap id ts.length }

/-- RemoveTask stops and forgets the timer for an id; true iff one existed. -/
def Scheduler.RemoveTask (s : Scheduler) (id : Int) : Bool × Scheduler :=
  match alookup s.taskMap id with
  | none => (false, s)
  | some i => (true, { timers := stopTimerAt s.timers i, taskMap := aerase s.taskMap id })

/-- Stop every timer referenced by the task map entries, in order. -/
def stopMapped : List (Int × Nat) → List Timer → List Timer
  | [], ts => ts
  | (_, i) :: rest, ts => stopMapped rest (stopTimerAt ts i)

/-- Stop loops over the task map stopping each timer, counts them, and
resets the map to empty. -/
def Scheduler.Stop (s : Scheduler) : Nat × Scheduler :=
  (s.taskMap.length, { timers := stopMapped s.taskMap s.timers, taskMap := [] })

/-- Mark the timer at an index as fired (its callback has run). -/
def setFired : List Timer → Nat → List Timer
  | [], _ => []
  | t :: rest, 0 => { t with fired := true } :: rest
  | t :: rest, n + 1 => t :: setFired rest n

/-- The Go runtime firing the timer at arena index i at time now: the job
runs only if the timer was neither stopped nor already fired and the
deadline has been reached.  Firing does not touch the task map. -/
def fireAt (s : Scheduler) (i : Nat) (now : Nat) : Scheduler :=
  match getNth s.timers i with
  | none => s
  | some t =>
    if t.stopped = false ∧ t.fired = false ∧ t.deadline ≤ now then
      { s with timers := setFired s.timers i }
    else s

/-- One step of scheduler activity: a caller invoking AddTask, RemoveTask or
Stop, or the runtime firing a timer. -/
inductive SchedStep where
  | add (deadline : Nat) (job : Nat) (id : Int)
  | remove (id : Int)
  | fire (i : Nat) (now : Nat)
  | stopAll
deriving DecidableEq

/-- Apply one scheduler step. -/
def applyStep (s : Scheduler) : SchedStep → Scheduler
  | .add d j id => s.AddTask d j id
  | .remove id => (s.RemoveTask id).2
  | .fire i now => fireAt s i now
  | .stopAll => (s.Stop).2

/-- Apply a sequence of scheduler steps. -/
def applySteps (s : Scheduler) : List SchedStep → Scheduler
  | [] => s
  | st :: rest => applySteps (applyStep s st) rest

/-- Fold a list of (deadline, job, id) AddTask calls over a scheduler. -/
def foldAddTasks (s : Scheduler) : List (Nat × Nat × Int) → Scheduler
  | [] => s
  | (d, j, id) :: rest => foldAddTasks (s.AddTask d j id) rest

/-- The timer at arena index i is live in the arena, stopped, and its
callback has not run. -/
def deadAt (ts : List Timer) (i : Nat) : Prop :=
  ∃ t, getNth ts i = some t ∧ t.stopped = true ∧ t.fired = false

/-- The timer at arena index i is live in the arena and stopped. -/
def stoppedAt (ts : List Timer) (i : Nat) : Prop :=
  ∃ t, getNth ts i = some t ∧ t.stopped = true


/-! ## Messenger (messenger/thing.go) -/

/-- Severity level of a log message (forms.MessageLevel). -/
inductive MessageLevel where
  | debug | info | warn | error
deriving DecidableEq

/-- Stored log entry: arrival time, level, originating system, body. -/
structure Message where
  time : Nat
  level : MessageLevel
  system : String
  body : String
deriving DecidableEq

/-- Incoming SystemMessage_v1 body. -/
structure SystemMessage where
  level : MessageLevel
  system : String
  body : String
deriving DecidableEq

/-- Per-system message store, a Go map from system name to its ring. -/
abbrev MsgStore : Type := List (String × List Message)

/-- The messenger starts with an empty message map. -/
def emptyStore : MsgStore := []

/-- Ring bound of the per-system message log. -/
def maxMessages : Nat := 10

/-- Current ring of a system (Go zero-value read yields the empty slice). -/
def ringOf (store : MsgStore) (s : String) : List Message :=
  alookupD store s []

/-- addMessage appends the stamped message to the sender's ring and, if the
ring now exceeds maxMessages entries, strips the oldest from the front. -/
def addMessage (store : MsgStore) (now : Nat) (m : SystemMessage) : MsgStore :=
  let appended := ringOf store m.system ++ [Message.mk now m.level m.system m.body]
  let ring := if maxMessages < appended.length then appended.drop 1 else appended
  aset store m.system ring

/-- Fold a sequence of ingest events (arrival time and body) over a store. -/
def foldMessages (store : MsgStore) : List (Nat × SystemMessage) → MsgStore
  | [] => store
  | (now, m) :: rest => foldMessages (addMessage store now m) rest

/-- Last n elements of a list, in order. -/
def lastN {α : Type} (n : Nat) (l : List α) : List α :=
  l.drop (l.length - n)

/-- The stored form of the ingest events addressed to one system. -/
def entriesFor (s : String) (entries : List (Nat × SystemMessage)) : List Message :=
  (entries.filter (fun e => e.2.system = s)).map
    (fun e => Message.mk e.1 e.2.level e.2.system e.2.body)

/-! ## Messenger dashboard (messenger/messenger.go) -/

/-- HTTP method of an incoming request. -/
inductive HttpMethod where
  | get | post | put | delete
deriving DecidableEq

/-- Outcome of executing the dashboard template into the local buffer:
the bytes Execute wrote into the buffer, and whether it succeeded.  When
ok is true, rendered is the complete page. -/
structure RenderOutcome where
  rendered : String
  ok : Bool
deriving DecidableEq

/-- Body text of Go's http.Error for a status code (http.StatusText). -/
def statusText (code : Nat) : String :=
  if code = 405 then "Method Not Allowed"
  else if code = 500 then "Internal Server Error"
  else ""

/-- handleDashboard: non-GET is refused with 405; the template is executed
into an internal buffer, on failure a bare 500 is sent and the buffer is
discarded, on success the whole buffer is written out as the response. -/
def handleDashboard (method : HttpMethod) (render : RenderOutcome) : Nat × String :=
  if method = HttpMethod.get then
    if render.ok then (200, render.rendered)
    else (500, statusText 500)
  else (405, statusText 405)

/-! ## Service registry data model (forms.ServiceRecord_v1) -/

/-- Service record as carried on the wire and stored in the registry.
Timestamps compared by string equality (Created) stay String; the ones the
registry recomputes (Updated, EndOfValidity) are instants as Nat.  Go's
float64 ACost is opaque to every claim and carried as Int. -/
structure ServiceRecord where
  Id : Int
  ServiceDefinition : String
  SystemName : String
  ServiceNode : String
  SubPath : String
  IPAddresses : List String
  ProtoPort : List (String × Nat)
  Details : List (String × List String)
  Certificate : String
  RegLife : Nat
  Created : String
  Updated : Nat
  EndOfValidity : Nat
  SubscribeAble : Bool
  ACost : Int
  CUnit : String
deriving DecidableEq

/-- Registry table: Go map from record Id to record. -/
abbrev RegTable : Type := List (Int × ServiceRecord)

/-- Modelled from the spec: the registry actor's add operation.  The actor
(serviceRegistryHandler in esr/thing.go) is not under src/; only its tests
(TestServiceRegistryHandlerAdd) and its HTTP callers are.  Spec section 4.1:
a record whose Id is 0 or absent from the table is a fresh insert under the
first unused Id scanned upward from recCount, with Created stamped when
empty and Updated and EndOfValidity set from now; a record whose Id is
present is a renewal whose (ServiceDefinition, SubPath, Created) must match
the stored entry byte-for-byte, otherwise the add fails with a conflict; on
match only Updated and EndOfValidity are overwritten.  The tests show the
first Id assigned with recCount = 0 is 1, hence the scan starts above
recCount. -/
def firstFreeId (table : RegTable) (fromId : Int) : Nat → Int
  | 0 => fromId
  | fuel + 1 =>
    match alookup table fromId with
    | none => fromId
    | some _ => firstFreeId table (fromId + 1) fuel

/-- Modelled from the spec: fresh-insert and renewal branches of the
registry actor's add (see firstFreeId for what is missing from src/). -/
def serviceRegistryAdd (table : RegTable) (recCount : Int) (r : ServiceRecord)
    (now : Nat) : Except String (RegTable × ServiceRecord) :=
  match (if r.Id = 0 then none else alookup table r.Id) with
  | none =>
    let newId := firstFreeId table (recCount + 1) (table.length + 1)
    let created := if r.Created = "" then toString now else r.Created
    let stored := { r with
      Id := newId
      Created := created
      Updated := now
      EndOfValidity := now + r.RegLife }
    .ok (aset table newId stored, stored)
  | some stored =>
    if stored.ServiceDefinition = r.ServiceDefinition ∧ stored.SubPath = r.SubPath ∧
        stored.Created = r.Created then
      let renewed := { stored with Updated := now, EndOfValidity := now + r.RegLife }
      .ok (aset table r.Id renewed, renewed)
    else
      .error "conflict with the existing service record"

/-- Modelled from the spec: the registry actor's delete operation removes
the table entry (and its timer); deleting a missing Id is a no-op, not an
error.  The actor itself is not under src/. -/
def serviceRegistryDelete (table : RegTable) (id : Int) : RegTable :=
  aerase table id

/-! ## Service registrar HTTP handlers (esr main file, src/unnamed/part_002) -/

/-- Mutable traits of a registrar replica plus its table and Id counter. -/
structure RegistrarState where
  leading : Bool
  leadingSince : Option Nat
  leadingRegistrarUrl : Option String
  serviceRegistry : RegTable
  recCount : Int
deriving DecidableEq

/-- updateDB (POST/PUT /register): a standby replica refuses at once with
503 before reading the body; on the leader the parsed record goes to the
actor's add, a conflict surfaces as 500, success returns 200 with the
stored record; any other method writes a plain message (implicit 200).
The request body is pre-parsed: none stands for an unreadable body, a bad
media type or an unpackable form (all 400 in the source). -/
def updateDB (ua : RegistrarState) (method : HttpMethod)
    (body : Option ServiceRecord) (now : Nat) : Nat × RegistrarState :=
  if ua.leading = false then (503, ua)
  else
    match method with
    | .post | .put =>
      match body with
      | none => (400, ua)
      | some r =>
        match serviceRegistryAdd ua.serviceRegistry ua.recCount r now with
        | .error _ => (500, ua)
        | .ok (table, _) => (200, { ua with serviceRegistry := table })
    | _ => (200, ua)

/-- cleanDB (DELETE /unregister/id): the id parsed from the URL tail (none
stands for a non-integer, 400); the delete goes to the actor and the
handler answers with the implicit 200.  The source has no leading check
here: a standby replica processes the delete as well. -/
def cleanDB (ua : RegistrarState) (method : HttpMethod)
    (idTail : Option Int) : Nat × RegistrarState :=
  match method with
  | .delete =>
    match idTail with
    | none => (400, ua)
    | some id =>
      (200, { ua with serviceRegistry := serviceRegistryDelete ua.serviceRegistry id })
  | _ => (200, ua)

/-- Hyperlink built for a record by the GET /query HTML listing and by the
orchestrator: http://IPAddresses[0]:ProtoPort[http]/SystemName/SubPath.
The Go slice indexing IPAddresses[0] panics on an empty list, hence the
Option; the ProtoPort map read yields the zero value 0 when absent. -/
def recordHyperlink (r : ServiceRecord) : Option String :=
  r.IPAddresses.head?.map (fun ip =>
    "http://" ++ ip ++ ":" ++ toString (alookupD r.ProtoPort "http" 0) ++ "/" ++
      r.SystemName ++ "/" ++ r.SubPath)

/-- One line of the GET /query HTML listing for a record; no value when the
hyperlink construction would panic. -/
def recordLine (r : ServiceRecord) : Option String :=
  (recordHyperlink r).map (fun link =>
    "<li><p>Service ID: " ++ toString r.Id ++ " with definition <b><a href=\"" ++ link ++
      "\">" ++ r.ServiceDefinition ++ "</b></a> from the <b>" ++ r.SystemName ++
      "</b> will expire at: " ++ toString r.EndOfValidity ++ "</p></li>")

/-- Body of the GET /query HTML listing over the table snapshot; no value
as soon as one record makes the per-record construction panic. -/
def renderListing : List ServiceRecord → Option String
  | [] => some ""
  | r :: rest =>
    match recordLine r, renderListing rest with
    | some line, some s => some (line ++ s)
    | _, _ => none

/-- queryDB for a GET (browser listing): answered on leader and standby
alike, the state untouched; the body is the HTML listing of the snapshot.
No value models the Go panic on a record without IP addresses. -/
def queryDB (ua : RegistrarState) (method : HttpMethod) :
    Option (Nat × String × RegistrarState) :=
  match method with
  | .get =>
    (renderListing (ua.serviceRegistry.map Prod.snd)).map (fun s =>
      (200, "<!DOCTYPE html><html><body><p>The local cloud's currently available services are:</p><ul>" ++
        s ++ "</ul></body></html>", ua))
  | .post => some (200, "", ua)
  | _ => some (405, statusText 405, ua)

/-! ## Leader election (Role, src/unnamed/part_002) -/

/-- What one GET on a peer's /status comes back with. -/
inductive PollResult where
  | okStatus
  | unavailable
  | otherStatus (code : Nat)
  | connError
deriving DecidableEq

/-- Leader-election view of a replica's traits. -/
structure RoleState where
  leading : Bool
  leadingSince : Option Nat
  leadingRegistrar : Option Nat
deriving DecidableEq

/-- The peer loop of one poll cycle, peers tagged with their /status
outcome.  A 200 adopts that peer as leader and stops the scan with standby
true; a connection error stops the scan at once (the source breaks out of
the loop); 503 and any other status move on to the next peer. -/
def scanPeers (st : RoleState) : List (Nat × PollResult) → Bool × RoleState
  | [] => (false, st)
  | (p, res) :: rest =>
    match res with
    | .connError => (false, st)
    | .okStatus =>
      (true, { leading := false, leadingSince := none, leadingRegistrar := some p })
    | .unavailable => scanPeers st rest
    | .otherStatus _ => scanPeers st rest

/-- One cycle of the Role goroutine: scan the peers, then take the lead at
now when the scan found no leader and this replica was not already
leading. -/
def pollCycle (st : RoleState) (peers : List (Nat × PollResult)) (now : Nat) : RoleState :=
  let r := scanPeers st peers
  if r.1 = false ∧ r.2.leading = false then
    { leading := true, leadingSince := some now, leadingRegistrar := none }
  else r.2

/-! ## Orchestrator (orchestrator/thing.go) -/

/-- Single selected provider (forms.ServicePoint_v1). -/
structure ServicePoint where
  ProviderName : String
  ServiceDefinition : String
  Details : List (String × List String)
  ServLocation : String
  ServNode : String
deriving DecidableEq

/-- selectService picks the first record of the list and builds the
ServicePoint from it; no value when the record has no IP address (the Go
indexing IPAddresses[0] panics) or the list is empty (guarded by the
caller). -/
def selectService : List ServiceRecord → Option ServicePoint
  | [] => none
  | r :: _ =>
    r.IPAddresses.head?.map (fun ip =>
      { ProviderName := r.SystemName
        ServiceDefinition := r.ServiceDefinition
        Details := r.Details
        ServLocation := "http://" ++ ip ++ ":" ++ toString (alookupD r.ProtoPort "http" 0) ++
          "/" ++ r.SystemName ++ "/" ++ r.SubPath
        ServNode := r.ServiceNode })

/-- Outcome of the orchestrator's POST of the quest to the registrar:
the HTTP round trip itself fails, the response body fails to read, the
body fails to unpack as a ServiceRecordList, or the decoded list. -/
inductive TransportResult where
  | doError
  | bodyError
  | badForm
  | response (records : List ServiceRecord)
deriving DecidableEq

/-- Orchestrator traits: the cached URL of the leading registrar. -/
structure OrchTraits where
  leadingRegistrar : String
deriving DecidableEq

/-- getServiceURL: resolve the registrar (discovered stands for the probe
of the peers when the cache is empty), post the quest, and reduce the
response to one ServicePoint.  Only the failure of the HTTP request itself
clears the cached registrar; a body-read or unpack failure keeps it.  The
outer Option models the Go panic inside selectService. -/
def getServiceURL (ua : OrchTraits) (discovered : Option String)
    (transport : TransportResult) : OrchTraits × Option (Except String ServicePoint) :=
  match (if ua.leadingRegistrar = "" then discovered else some ua.leadingRegistrar) with
  | none => (ua, some (.error "no leading registrar found"))
  | some lr =>
    match transport with
    | .doError => (⟨""⟩, some (.error "transport error"))
    | .bodyError => (⟨lr⟩, some (.error "body read error"))
    | .badForm => (⟨lr⟩, some (.error "unpack error"))
    | .response records =>
      match records with
      | [] => (⟨lr⟩, some (.error "unable to locate any such service"))
      | r :: rest =>
        match selectService (r :: rest) with
        | none => (⟨lr⟩, none)
        | some sp => (⟨lr⟩, some (.ok sp))

/-- getServicesURL: same round trip as getServiceURL but the whole decoded
list is returned, so nothing indexes into a record and no panic is
possible. -/
def getServicesURL (ua : OrchTraits) (discovered : Option String)
    (transport : TransportResult) : OrchTraits × Except String (List ServiceRecord) :=
  match (if ua.leadingRegistrar = "" then discovered else some ua.leadingRegistrar) with
  | none => (ua, .error "no leading registrar found")
  | some lr =>
    match transport with
    | .doError => (⟨""⟩, .error "transport error")
    | .bodyError => (⟨lr⟩, .error "body read error")
    | .badForm => (⟨lr⟩, .error "unpack error")
    | .response records =>
      match records with
      | [] => (⟨lr⟩, .error "unable to locate any such service")
      | r :: rest => (⟨lr⟩, .ok (r :: rest))

/-! ## Concrete fixtures used by witnesses and counterexamples -/

/-- A well-formed service record as in the registration round-trip
scenario of the spec. -/
def exampleRecord : ServiceRecord :=
  { Id := 1
    ServiceDefinition := "temperature"
    SystemName := "sensor1"
    ServiceNode := "node"
    SubPath := "temp"
    IPAddresses := ["10.0.0.1"]
    ProtoPort := [("http", 8081)]
    Details := [("Location", ["Kitchen"])]
    Certificate := "ABCD"
    RegLife := 30
    Created := "2025-01-01T00:00:00Z"
    Updated := 0
    EndOfValidity := 30
    SubscribeAble := false
    ACost := 0
    CUnit := "" }

/-- A one-entry registry table holding exampleRecord under its Id. -/
def exampleTable : RegTable := [(1, exampleRecord)]

/-- A standby registrar replica holding exampleTable. -/
def standbyRegistrar : RegistrarState :=
  { leading := false
    leadingSince := none
    leadingRegistrarUrl := some "http://leader:20102"
    serviceRegistry := exampleTable
    recCount := 1 }

/-- Twelve ingest events from one system, bodies numbered 0 through 11. -/
def twelveEvents : List (Nat × SystemMessage) :=
  (List.range 12).map (fun i => (i, SystemMessage.mk MessageLevel.info "X" (toString i)))

/-! # Theorems -/

/-! ## Association-list lemmas -/

lemma alookup_aset_self {α β : Type} [DecidableEq α] (l : List (α × β)) (a : α) (b : β) :
    alookup (aset l a b) a = some b := by
  induction l with
  | nil => simp [aset, alookup]
  | cons kv rest ih =>
    obtain ⟨k, v⟩ := kv
    by_cases h : k = a
    · simp [aset, h, alookup]
    · simp [aset, h, alookup, ih]

lemma alookup_aset_ne {α β : Type} [DecidableEq α] (l : List (α × β)) (a a' : α) (b : β)
    (h : a ≠ a') : alookup (aset l a b) a' = alookup l a' := by
  induction l with
  | nil => simp [aset, alookup, h]
  | cons kv rest ih =>
    obtain ⟨k, v⟩ := kv
    by_cases hk : k = a
    · subst hk
      simp [aset, alookup, h]
    · by_cases hk' : k = a'
      · subst hk'
        simp [aset, Ne.symm h, alookup]
      · simp [aset, hk, alookup, hk', ih]

lemma aset_of_lookup_none {α β : Type} [DecidableEq α] (l : List (α × β)) (a : α) (b : β)
    (h : alookup l a = none) : aset l a b = l ++ [(a, b)] := by
  induction l with
  | nil => simp [aset]
  | cons kv rest ih =>
    obtain ⟨k, v⟩ := kv
    by_cases hk : k = a
    · simp [alookup, hk] at h
    · simp [alookup, hk] at h
      simp [aset, hk, ih h]

/-! ## C10: dashboard renders into a buffer before writing -/

/-- C10: handleDashboard renders the page into an internal buffer before
any byte reaches the client: on a failed template execution the response
is exactly a bare 500 regardless of what the execution had produced, and
on success the response is the complete rendered page. -/
theorem dashboard_buffered_atomic (s t : String) :
    handleDashboard HttpMethod.get ⟨s, false⟩ = (500, statusText 500) ∧
    handleDashboard HttpMethod.get ⟨s, true⟩ = (200, s) ∧
    (handleDashboard HttpMethod.get ⟨s, false⟩).2 = (handleDashboard HttpMethod.get ⟨t, false⟩).2 := by
  refine ⟨rfl, rfl, rfl⟩

/-! ## C5: which transport failures clear the cached leading registrar -/

/-- C5 counterexample: a failure while reading the response body does not
clear the cached leadingRegistrar; the claim that every transport failure
(request or body read) clears it is false on the code. -/
theorem body_error_keeps_cache_counterexample :
    getServiceURL ⟨"http://reg"⟩ none TransportResult.bodyError =
      (⟨"http://reg"⟩, some (Except.error "body read error")) ∧
    getServicesURL ⟨"http://reg"⟩ none TransportResult.bodyError =
      (⟨"http://reg"⟩, Except.error "body read error") ∧
    "http://reg" ≠ "" := by
  refine ⟨rfl, rfl, by decide⟩

/-- C5 amended: in getServiceURL and getServicesURL only a failure of the
outbound HTTP request itself clears the cached leadingRegistrar before the
error is returned; a failure while reading the response body (or while
unpacking it) returns the error with the cached registrar left intact. -/
theorem transport_error_cache_policy (lrs d : String) :
    (getServiceURL ⟨lrs⟩ (some d) TransportResult.doError).1 = ⟨""⟩ ∧
    (getServicesURL ⟨lrs⟩ (some d) TransportResult.doError).1 = ⟨""⟩ ∧
    (getServiceURL ⟨lrs⟩ (some d) TransportResult.bodyError).1 =
      ⟨if lrs = "" then d else lrs⟩ ∧
    (getServicesURL ⟨lrs⟩ (some d) TransportResult.bodyError).1 =
      ⟨if lrs = "" then d else lrs⟩ ∧
    (getServiceURL ⟨lrs⟩ (some d) TransportResult.badForm).1 =
      ⟨if lrs = "" then d else lrs⟩ ∧
    (getServicesURL ⟨lrs⟩ (some d) TransportResult.badForm).1 =
      ⟨if lrs = "" then d else lrs⟩ := by
  by_cases h : lrs = "" <;>
    simp [getServiceURL, getServicesURL, h]

/-! ## C4: first-of-list provider selection -/

/-- C4: for a non-empty decoded list the orchestrator picks exactly the
first record, building the ServicePoint location from its first IP
address, its http port, its system name and its sub path, and copying
provider name, definition, details and node; for an empty list
getServiceURL fails with an error instead of producing a ServicePoint. -/
theorem orchestrator_selects_first (r : ServiceRecord) (rest : List ServiceRecord)
    (ip : String) (ips : List String) (lrs d : String) :
    selectService ({ r with IPAddresses := ip :: ips } :: rest) =
      some ⟨r.SystemName, r.ServiceDefinition, r.Details,
        "http://" ++ ip ++ ":" ++ toString (alookupD r.ProtoPort "http" 0) ++ "/" ++
          r.SystemName ++ "/" ++ r.SubPath, r.ServiceNode⟩ ∧
    (getServiceURL ⟨lrs⟩ (some d)
        (TransportResult.response ({ r with IPAddresses := ip :: ips } :: rest))).2 =
      some (Except.ok ⟨r.SystemName, r.ServiceDefinition, r.Details,
        "http://" ++ ip ++ ":" ++ toString (alookupD r.ProtoPort "http" 0) ++ "/" ++
          r.SystemName ++ "/" ++ r.SubPath, r.ServiceNode⟩) ∧
    (getServiceURL ⟨lrs⟩ (some d) (TransportResult.response [])).2 =
      some (Except.error "unable to locate any such service") := by
  refine ⟨rfl, ?_, ?_⟩ <;> by_cases h : lrs = "" <;>
    simp [getServiceURL, selectService, h]

/-! ## C3: leader election poll cycle -/

lemma scanPeers_no_ok (st : RoleState) (peers : List (Nat × PollResult))
    (h : ∀ q ∈ peers, q.2 ≠ PollResult.okStatus) : scanPeers st peers = (false, st) := by
  induction peers with
  | nil => rfl
  | cons q rest ih =>
    obtain ⟨p, res⟩ := q
    have hq := h (p, res) (List.mem_cons_self _ _)
    cases res with
    | okStatus => exact absurd rfl hq
    | unavailable => exact ih (fun q hq' => h q (List.mem_cons_of_mem _ hq'))
    | otherStatus c => exact ih (fun q hq' => h q (List.mem_cons_of_mem _ hq'))
    | connError => rfl

lemma scanPeers_finds_ok (st : RoleState) (pre post : List (Nat × PollResult)) (p : Nat)
    (h : ∀ q ∈ pre, q.2 ≠ PollResult.okStatus ∧ q.2 ≠ PollResult.connError) :
    scanPeers st (pre ++ (p, PollResult.okStatus) :: post) =
      (true, ⟨false, none, some p⟩) := by
  induction pre with
  | nil => rfl
  | cons q rest ih =>
    obtain ⟨p', res⟩ := q
    have hq := h (p', res) (List.mem_cons_self _ _)
    cases res with
    | okStatus => exact absurd rfl hq.1
    | connError => exact absurd rfl hq.2
    | unavailable => exact ih (fun q hq' => h q (List.mem_cons_of_mem _ hq'))
    | otherStatus c => exact ih (fun q hq' => h q (List.mem_cons_of_mem _ hq'))

lemma scanPeers_cut_at_connError (st : RoleState) (pre post : List (Nat × PollResult)) (p : Nat)
    (h : ∀ q ∈ pre, q.2 ≠ PollResult.okStatus) :
    scanPeers st (pre ++ (p, PollResult.connError) :: post) = (false, st) := by
  induction pre with
  | nil => rfl
  | cons q rest ih =>
    obtain ⟨p', res⟩ := q
    have hq := h (p', res) (List.mem_cons_self _ _)
    cases res with
    | okStatus => exact absurd rfl hq
    | connError => rfl
    | unavailable => exact ih (fun q hq' => h q (List.mem_cons_of_mem _ hq'))
    | otherStatus c => exact ih (fun q hq' => h q (List.mem_cons_of_mem _ hq'))

/-- C3 counterexample: with a first peer unreachable and a second peer
answering 200, the poll cycle does not adopt the second peer: the
connection error breaks the scan, so the replica takes the lead itself,
contrary to the claim that an unreachable earlier peer does not prevent a
later peer returning 200 from being adopted. -/
theorem role_break_on_connError_counterexample :
    pollCycle ⟨false, none, none⟩
        [(1, PollResult.connError), (2, PollResult.okStatus)] 42 =
      ⟨true, some 42, none⟩ ∧
    (pollCycle ⟨false, none, none⟩
        [(1, PollResult.connError), (2, PollResult.okStatus)] 42).leadingRegistrar ≠ some 2 ∧
    (pollCycle ⟨false, none, none⟩
        [(1, PollResult.connError), (2, PollResult.okStatus)] 42).leading ≠ false := by
  refine ⟨rfl, by decide, by decide⟩

/-- C3 amended: the poll cycle adopts as leader the first peer returning
200 provided every earlier peer responded (with some non-200 status); a
connection error anywhere before that aborts the whole scan for the cycle,
so later peers are not polled; when the scan adopts no leader and the
replica was not already leading it takes the lead at now, and when it was
already leading it stays unchanged. -/
theorem role_poll_cycle (st : RoleState) (pre post peers : List (Nat × PollResult))
    (p : Nat) (now : Nat) :
    ((∀ q ∈ pre, q.2 ≠ PollResult.okStatus ∧ q.2 ≠ PollResult.connError) →
      pollCycle st (pre ++ (p, PollResult.okStatus) :: post) now = ⟨false, none, some p⟩) ∧
    ((∀ q ∈ pre, q.2 ≠ PollResult.okStatus) →
      scanPeers st (pre ++ (p, PollResult.connError) :: post) = (false, st)) ∧
    ((∀ q ∈ peers, q.2 ≠ PollResult.okStatus) → st.leading = false →
      pollCycle st peers now = ⟨true, some now, none⟩) ∧
    ((∀ q ∈ peers, q.2 ≠ PollResult.okStatus) → st.leading = true →
      pollCycle st peers now = st) := by
  refine ⟨?_, ?_, ?_, ?_⟩
  · intro h
    simp [pollCycle, scanPeers_finds_ok st pre post p h]
  · intro h
    exact scanPeers_cut_at_connError st pre post p h
  · intro h hl
    simp [pollCycle, scanPeers_no_ok st peers h, hl]
  · intro h hl
    simp [pollCycle, scanPeers_no_ok st peers h, hl]

/-- C3 witness: the amended poll-cycle theorem applied to concrete peer
lists. -/
theorem role_poll_cycle_witness :
    pollCycle ⟨false, none, none⟩
        [(1, PollResult.unavailable), (2, PollResult.okStatus)] 7 = ⟨false, none, some 2⟩ ∧
    scanPeers ⟨false, none, none⟩
        [(1, PollResult.unavailable), (2, PollResult.connError), (3, PollResult.okStatus)] =
      (false, ⟨false, none, none⟩) ∧
    pollCycle ⟨false, none, none⟩ [(1, PollResult.unavailable)] 7 = ⟨true, some 7, none⟩ ∧
    pollCycle ⟨true, some 3, none⟩ [(1, PollResult.unavailable)] 7 = ⟨true, some 3, none⟩ := by
  refine ⟨(role_poll_cycle ⟨false, none, none⟩ [(1, PollResult.unavailable)] [] [] 2 7).1 (by decide),
    ?_, ?_, ?_⟩
  · exact (role_poll_cycle ⟨false, none, none⟩ [(1, PollResult.unavailable)]
      [(3, PollResult.okStatus)] [] 2 0).2.1 (by decide)
  · exact (role_poll_cycle ⟨false, none, none⟩ [] [] [(1, PollResult.unavailable)] 0 7).2.2.1
      (by decide) rfl
  · exact (role_poll_cycle ⟨true, some 3, none⟩ [] [] [(1, PollResult.unavailable)] 0 7).2.2.2
      (by decide) rfl

/-! ## C1: standby replicas and mutating requests -/

/-- C1: on a standby replica (leading false) a register through updateDB is
refused with 503 and the state is untouched, and a GET query is still
answered with 200 from the local table; but an unregister through cleanDB
carries no leading check in the source: a standby replica processes the
DELETE, removes the record and answers 200, not 503 — against the spec's
requirement that both writes fail with 503 while standby. -/
theorem standby_write_handling (ls : Option Nat) (lr : Option String) (table : RegTable)
    (rc : Int) (method : HttpMethod) (body : Option ServiceRecord) (now : Nat) (idt : Int) :
    updateDB ⟨false, ls, lr, table, rc⟩ method body now = (503, ⟨false, ls, lr, table, rc⟩) ∧
    cleanDB ⟨false, ls, lr, table, rc⟩ HttpMethod.delete (some idt) =
      (200, ⟨false, ls, lr, aerase table idt, rc⟩) ∧
    cleanDB standbyRegistrar HttpMethod.delete (some 1) =
      (200, { standbyRegistrar with serviceRegistry := [] }) ∧
    alookup standbyRegistrar.serviceRegistry 1 = some exampleRecord ∧
    standbyRegistrar.leading = false ∧
    (200 : Nat) ≠ 503 ∧
    queryDB ⟨false, ls, lr, table, rc⟩ HttpMethod.get =
      (renderListing (table.map Prod.snd)).map (fun s =>
        (200, "<!DOCTYPE html><html><body><p>The local cloud's currently available services are:</p><ul>" ++
          s ++ "</ul></body></html>", ⟨false, ls, lr, table, rc⟩)) := by
  refine ⟨rfl, rfl, by decide, by decide, rfl, by decide, rfl⟩

/-! ## C2: renewal of an existing registration -/

/-- C2: a register whose record carries a nonzero Id at which an entry
exists is a renewal: when the stored entry differs from the incoming
record in ServiceDefinition, SubPath or Created, the add fails and —
through updateDB — the table is unchanged; when all three match, the
stored entry is overwritten only in Updated and EndOfValidity and every
other field is kept. -/
theorem register_renewal (table : RegTable) (recCount : Int) (r stored : ServiceRecord)
    (now : Nat) (ls : Option Nat) (lr : Option String)
    (hId : r.Id ≠ 0) (hlook : alookup table r.Id = some stored) :
    (¬(stored.ServiceDefinition = r.ServiceDefinition ∧ stored.SubPath = r.SubPath ∧
        stored.Created = r.Created) →
      serviceRegistryAdd table recCount r now =
        Except.error "conflict with the existing service record" ∧
      updateDB ⟨true, ls, lr, table, recCount⟩ HttpMethod.post (some r) now =
        (500, ⟨true, ls, lr, table, recCount⟩)) ∧
    ((stored.ServiceDefinition = r.ServiceDefinition ∧ stored.SubPath = r.SubPath ∧
        stored.Created = r.Created) →
      serviceRegistryAdd table recCount r now =
        Except.ok (aset table r.Id { stored with Updated := now, EndOfValidity := now + r.RegLife },
          { stored with Updated := now, EndOfValidity := now + r.RegLife })) := by
  constructor
  · intro hmis
    have hadd : serviceRegistryAdd table recCount r now =
        Except.error "conflict with the existing service record" := by
      simp [serviceRegistryAdd, hId, hlook, hmis]
    refine ⟨hadd, ?_⟩
    simp [updateDB, hadd]
  · intro hmatch
    simp [serviceRegistryAdd, hId, hlook, hmatch]

/-- C2 witness: renewal behaviour at the concrete example table, once with
a mismatching service definition and once with a full match. -/
theorem register_renewal_witness :
    (serviceRegistryAdd exampleTable 1 { exampleRecord with ServiceDefinition := "humidity" } 40 =
      Except.error "conflict with the existing service record" ∧
     updateDB ⟨true, none, none, exampleTable, 1⟩ HttpMethod.post
        (some { exampleRecord with ServiceDefinition := "humidity" }) 40 =
      (500, ⟨true, none, none, exampleTable, 1⟩)) ∧
    serviceRegistryAdd exampleTable 1 exampleRecord 40 =
      Except.ok (aset exampleTable 1 { exampleRecord with Updated := 40, EndOfValidity := 70 },
        { exampleRecord with Updated := 40, EndOfValidity := 70 }) := by
  constructor
  · exact (register_renewal exampleTable 1 { exampleRecord with ServiceDefinition := "humidity" }
      exampleRecord 40 none none (by decide) (by decide)).1 (by decide)
  · exact (register_renewal exampleTable 1 exampleRecord exampleRecord 40 none none
      (by decide) (by decide)).2 (by decide)

/-! ## C9: unguarded indexing of IPAddresses[0] -/

lemma recordHyperlink_isSome_of_ip (r : ServiceRecord) (h : r.IPAddresses ≠ []) :
    (recordHyperlink r).isSome = true := by
  cases hip : r.IPAddresses with
  | nil => exact absurd hip h
  | cons ip rest => simp [recordHyperlink, hip]

lemma renderListing_isSome (records : List ServiceRecord)
    (h : ∀ q ∈ records, q.IPAddresses ≠ []) :
    (renderListing records).isSome = true := by
  induction records with
  | nil => rfl
  | cons r rest ih =>
    have hr := recordHyperlink_isSome_of_ip r (h r (List.mem_cons_self _ _))
    have hrest := ih (fun q hq => h q (List.mem_cons_of_mem _ hq))
    obtain ⟨link, hlink⟩ := Option.isSome_iff_exists.mp hr
    obtain ⟨s, hs⟩ := Option.isSome_iff_exists.mp hrest
    simp [renderListing, recordLine, hlink, hs]

/-- C9: the provider-selection and HTML-listing constructions index the
first IP address of a record with no guard: with a non-empty IPAddresses
list every construction has a value, and a record with an empty
IPAddresses list makes the hyperlink, the selection and the whole GET
query listing valueless (the embedded Go indexing panics). -/
theorem ip_index_precondition (r : ServiceRecord) (ip : String) (ips : List String)
    (records : List ServiceRecord) :
    (recordHyperlink { r with IPAddresses := ip :: ips }).isSome = true ∧
    (selectService ({ r with IPAddresses := ip :: ips } :: records)).isSome = true ∧
    recordHyperlink { r with IPAddresses := [] } = none ∧
    selectService ({ r with IPAddresses := [] } :: records) = none ∧
    ((∀ q ∈ records, q.IPAddresses ≠ []) → (renderListing records).isSome = true) ∧
    queryDB ⟨false, none, none, [(1, { r with IPAddresses := [] })], 0⟩ HttpMethod.get =
      none := by
  refine ⟨by simp [recordHyperlink], by simp [selectService], by simp [recordHyperlink],
    by simp [selectService], renderListing_isSome records, ?_⟩
  simp [queryDB, renderListing, recordLine, recordHyperlink]

/-- C9 witness: the precondition theorem applied to the example record and
a concrete record list. -/
theorem ip_index_precondition_witness :
    (recordHyperlink { exampleRecord with IPAddresses := ["10.0.0.9"] }).isSome = true ∧
    (renderListing [exampleRecord]).isSome = true ∧
    queryDB ⟨false, none, none, [(1, { exampleRecord with IPAddresses := [] })], 0⟩
      HttpMethod.get = none := by
  refine ⟨?_, ?_, ?_⟩
  · exact (ip_index_precondition exampleRecord "10.0.0.9" [] []).1
  · exact (ip_index_precondition exampleRecord "10.0.0.9" [] [exampleRecord]).2.2.2.2.1
      (by decide)
  · exact (ip_index_precondition exampleRecord "10.0.0.9" [] []).2.2.2.2.2

/-! ## Scheduler lemmas -/

lemma stopTimerAt_length (ts : List Timer) (i : Nat) :
    (stopTimerAt ts i).length = ts.length := by
  induction ts generalizing i with
  | nil => rfl
  | cons t rest ih =>
    cases i with
    | zero => rfl
    | succ n => simp [stopTimerAt, ih]

lemma setFired_length (ts : List Timer) (i : Nat) :
    (setFired ts i).length = ts.length := by
  induction ts generalizing i with
  | nil => rfl
  | cons t rest ih =>
    cases i with
    | zero => rfl
    | succ n => simp [setFired, ih]

lemma getNth_some_lt (ts : List Timer) (i : Nat) (t : Timer) (h : getNth ts i = some t) :
    i < ts.length := by
  induction ts generalizing i with
  | nil => simp [getNth] at h
  | cons t' rest ih =>
    cases i with
    | zero => simp
    | succ n =>
      have := ih n h
      simp only [List.length_cons]
      omega

lemma getNth_stopTimerAt_self (ts : List Timer) (i : Nat) (t : Timer)
    (h : getNth ts i = some t) :
    getNth (stopTimerAt ts i) i = some { t with stopped := true } := by
  induction ts generalizing i with
  | nil => simp [getNth] at h
  | cons t' rest ih =>
    cases i with
    | zero =>
      simp [getNth] at h
      simp [stopTimerAt, getNth, h]
    | succ n => exact ih n h

lemma getNth_stopTimerAt_ne (ts : List Timer) (i j : Nat) (h : i ≠ j) :
    getNth (stopTimerAt ts j) i = getNth ts i := by
  induction ts generalizing i j with
  | nil => rfl
  | cons t rest ih =>
    cases j with
    | zero =>
      cases i with
      | zero => exact absurd rfl h
      | succ n => rfl
    | succ m =>
      cases i with
      | zero => rfl
      | succ n => exact ih n m (by omega)

lemma getNth_setFired_ne (ts : List Timer) (i j : Nat) (h : i ≠ j) :
    getNth (setFired ts j) i = getNth ts i := by
  induction ts generalizing i j with
  | nil => rfl
  | cons t rest ih =>
    cases j with
    | zero =>
      cases i with
      | zero => exact absurd rfl h
      | succ n => rfl
    | succ m =>
      cases i with
      | zero => rfl
      | succ n => exact ih n m (by omega)

lemma getNth_setFired_self (ts : List Timer) (i : Nat) (t : Timer)
    (h : getNth ts i = some t) :
    getNth (setFired ts i) i = some { t with fired := true } := by
  induction ts generalizing i with
  | nil => simp [getNth] at h
  | cons t' rest ih =>
    cases i with
    | zero =>
      simp [getNth] at h
      simp [setFired, getNth, h]
    | succ n => exact ih n h

lemma getNth_append_left (ts l : List Timer) (i : Nat) (h : i < ts.length) :
    getNth (ts ++ l) i = getNth ts i := by
  induction ts generalizing i with
  | nil => simp at h
  | cons t rest ih =>
    cases i with
    | zero => rfl
    | succ n =>
      simp at h
      exact ih n (by omega)

lemma getNth_append_self (ts : List Timer) (t : Timer) :
    getNth (ts ++ [t]) ts.length = some t := by
  induction ts with
  | nil => rfl
  | cons t' rest ih => exact ih

lemma deadAt_stopTimerAt (ts : List Timer) (i j : Nat) (h : deadAt ts i) :
    deadAt (stopTimerAt ts j) i := by
  obtain ⟨t, hget, hstop, hfir⟩ := h
  by_cases hij : i = j
  · subst hij
    exact ⟨{ t with stopped := true }, getNth_stopTimerAt_self ts i t hget, rfl, hfir⟩
  · exact ⟨t, by rw [getNth_stopTimerAt_ne ts i j hij]; exact hget, hstop, hfir⟩

lemma deadAt_append (ts l : List Timer) (i : Nat) (h : deadAt ts i) :
    deadAt (ts ++ l) i := by
  obtain ⟨t, hget, hstop, hfir⟩ := h
  exact ⟨t, by rw [getNth_append_left ts l i (getNth_some_lt ts i t hget)]; exact hget,
    hstop, hfir⟩

lemma deadAt_stopMapped (m : List (Int × Nat)) (ts : List Timer) (i : Nat)
    (h : deadAt ts i) : deadAt (stopMapped m ts) i := by
  induction m generalizing ts with
  | nil => exact h
  | cons kv rest ih =>
    obtain ⟨k, j⟩ := kv
    exact ih (stopTimerAt ts j) (deadAt_stopTimerAt ts i j h)

lemma deadAt_fireAt (s : Scheduler) (i j now : Nat) (h : deadAt s.timers i) :
    deadAt (fireAt s j now).timers i := by
  obtain ⟨t, hget, hstop, hfir⟩ := h
  cases hj : getNth s.timers j with
  | none =>
    have hs : fireAt s j now = s := by
      unfold fireAt
      rw [hj]
    rw [hs]
    exact ⟨t, hget, hstop, hfir⟩
  | some tj =>
    by_cases hcond : tj.stopped = false ∧ tj.fired = false ∧ tj.deadline ≤ now
    · have hs : fireAt s j now = { s with timers := setFired s.timers j } := by
        unfold fireAt
        rw [hj]
        exact if_pos hcond
      by_cases hij : i = j
      · subst hij
        rw [hget] at hj
        cases hj
        rw [hstop] at hcond
        simp at hcond
      · rw [hs]
        exact ⟨t, by rw [getNth_setFired_ne s.timers i j hij]; exact hget, hstop, hfir⟩
    · have hs : fireAt s j now = s := by
        unfold fireAt
        rw [hj]
        exact if_neg hcond
      rw [hs]
      exact ⟨t, hget, hstop, hfir⟩

lemma deadAt_applyStep (s : Scheduler) (st : SchedStep) (i : Nat)
    (h : deadAt s.timers i) : deadAt (applyStep s st).timers i := by
  cases st with
  | add d j id =>
    simp only [applyStep, Scheduler.AddTask]
    cases hl : alookup s.taskMap id with
    | none => exact deadAt_append s.timers _ i h
    | some k => exact deadAt_append _ _ i (deadAt_stopTimerAt s.timers i k h)
  | remove id =>
    simp only [applyStep, Scheduler.RemoveTask]
    cases hl : alookup s.taskMap id with
    | none => exact h
    | some k => exact deadAt_stopTimerAt s.timers i k h
  | fire j now => exact deadAt_fireAt s i j now h
  | stopAll => exact deadAt_stopMapped s.taskMap s.timers i h

lemma deadAt_applySteps (s : Scheduler) (steps : List SchedStep) (i : Nat)
    (h : deadAt s.timers i) : deadAt (applySteps s steps).timers i := by
  induction steps generalizing s with
  | nil => exact h
  | cons st rest ih => exact ih (applyStep s st) (deadAt_applyStep s st i h)

/-! ## C7: AddTask replaces an existing timer -/

/-- C7: an AddTask for an id whose timer exists stops the old timer first,
so the old job never fires under any later scheduler activity; the id is
remapped to a freshly armed timer carrying the new deadline and job, and
that timer does not fire before its deadline and, like every timer, fires
at most once. -/
theorem addTask_replaces (s : Scheduler) (d j : Nat) (id : Int) (i : Nat) (told : Timer)
    (hlook : alookup s.taskMap id = some i)
    (hold : getNth s.timers i = some told) (hunf : told.fired = false) :
    (∀ steps, deadAt (applySteps (s.AddTask d j id) steps).timers i) ∧
    alookup (s.AddTask d j id).taskMap id = some s.timers.length ∧
    getNth (s.AddTask d j id).timers s.timers.length = some (Timer.mk d j false false) ∧
    (∀ now, now < d → fireAt (s.AddTask d j id) s.timers.length now = s.AddTask d j id) ∧
    (∀ sAny : Scheduler, ∀ k now : Nat, ∀ t : Timer, getNth sAny.timers k = some t →
      t.fired = true → fireAt sAny k now = sAny) := by
  have hs' : s.AddTask d j id =
      { timers := stopTimerAt s.timers i ++ [Timer.mk d j false false],
        taskMap := aset s.taskMap id (stopTimerAt s.timers i).length } := by
    simp [Scheduler.AddTask, hlook]
  have hlen : (stopTimerAt s.timers i).length = s.timers.length := stopTimerAt_length _ _
  have hdead : deadAt (s.AddTask d j id).timers i := by
    rw [hs']
    refine deadAt_append _ _ i ?_
    exact ⟨{ told with stopped := true }, getNth_stopTimerAt_self s.timers i told hold,
      rfl, hunf⟩
  have hnew : getNth (s.AddTask d j id).timers s.timers.length =
      some (Timer.mk d j false false) := by
    rw [hs']
    have := getNth_append_self (stopTimerAt s.timers i) (Timer.mk d j false false)
    rw [hlen] at this
    exact this
  refine ⟨fun steps => deadAt_applySteps _ steps i hdead, ?_, hnew, ?_, ?_⟩
  · rw [hs']
    dsimp only
    rw [hlen]
    exact alookup_aset_self s.taskMap id s.timers.length
  · intro now hnow
    unfold fireAt
    rw [hnew]
    refine if_neg ?_
    intro hcond
    simp at hcond
    omega
  · intro sAny k now t hget hfired
    unfold fireAt
    rw [hget]
    refine if_neg ?_
    intro hcond
    rw [hfired] at hcond
    simp at hcond

/-- C7 witness: replacing the single timer of a one-task scheduler. -/
theorem addTask_replaces_witness :
    (∀ steps, deadAt (applySteps ((newScheduler.AddTask 5 7 0).AddTask 9 8 0) steps).timers 0) ∧
    alookup ((newScheduler.AddTask 5 7 0).AddTask 9 8 0).taskMap 0 =
      some (newScheduler.AddTask 5 7 0).timers.length ∧
    getNth ((newScheduler.AddTask 5 7 0).AddTask 9 8 0).timers
      (newScheduler.AddTask 5 7 0).timers.length = some (Timer.mk 9 8 false false) ∧
    (∀ now, now < 9 → fireAt ((newScheduler.AddTask 5 7 0).AddTask 9 8 0)
      (newScheduler.AddTask 5 7 0).timers.length now =
        (newScheduler.AddTask 5 7 0).AddTask 9 8 0) ∧
    (∀ sAny : Scheduler, ∀ k now : Nat, ∀ t : Timer, getNth sAny.timers k = some t →
      t.fired = true → fireAt sAny k now = sAny) :=
  addTask_replaces (newScheduler.AddTask 5 7 0) 9 8 0 0 (Timer.mk 5 7 false false)
    (by decide) (by decide) rfl

/-! ## C8: what Stop returns after N AddTask calls -/

lemma alookup_some_mem_snd {α β : Type} [DecidableEq α] (m : List (α × β)) (a : α) (b : β)
    (h : alookup m a = some b) : b ∈ m.map Prod.snd := by
  induction m with
  | nil => simp [alookup] at h
  | cons kv rest ih =>
    obtain ⟨k, v⟩ := kv
    by_cases hk : k = a
    · simp [alookup, hk] at h
      simp [h]
    · simp [alookup, hk] at h
      simp [ih h]

lemma stoppedAt_stopTimerAt_pres (ts : List Timer) (j i : Nat) (h : stoppedAt ts i) :
    stoppedAt (stopTimerAt ts j) i := by
  obtain ⟨t, hget, hstop⟩ := h
  by_cases hij : i = j
  · subst hij
    exact ⟨{ t with stopped := true }, getNth_stopTimerAt_self ts i t hget, rfl⟩
  · exact ⟨t, by rw [getNth_stopTimerAt_ne ts i j hij]; exact hget, hstop⟩

lemma stoppedAt_stopMapped_pres (m : List (Int × Nat)) (ts : List Timer) (i : Nat)
    (h : stoppedAt ts i) : stoppedAt (stopMapped m ts) i := by
  induction m generalizing ts with
  | nil => exact h
  | cons kv rest ih =>
    obtain ⟨k, j⟩ := kv
    exact ih (stopTimerAt ts j) (stoppedAt_stopTimerAt_pres ts j i h)

lemma getNth_stopTimerAt_isSome (ts : List Timer) (j i : Nat)
    (h : ∃ t, getNth ts i = some t) : ∃ t, getNth (stopTimerAt ts j) i = some t := by
  obtain ⟨t, hget⟩ := h
  by_cases hij : i = j
  · subst hij
    exact ⟨{ t with stopped := true }, getNth_stopTimerAt_self ts i t hget⟩
  · exact ⟨t, by rw [getNth_stopTimerAt_ne ts i j hij]; exact hget⟩

lemma stoppedAt_stopMapped_mem (m : List (Int × Nat)) (ts : List Timer) (i : Nat)
    (hmem : i ∈ m.map Prod.snd) (hrange : ∃ t, getNth ts i = some t) :
    stoppedAt (stopMapped m ts) i := by
  induction m generalizing ts with
  | nil => simp at hmem
  | cons kv rest ih =>
    obtain ⟨k, j⟩ := kv
    simp at hmem
    rcases hmem with hji | hmem
    · subst hji
      obtain ⟨t, hget⟩ := hrange
      exact stoppedAt_stopMapped_pres rest (stopTimerAt ts i) i
        ⟨{ t with stopped := true }, getNth_stopTimerAt_self ts i t hget, rfl⟩
    · exact ih (stopTimerAt ts j) (by simpa using hmem)
        (getNth_stopTimerAt_isSome ts j i hrange)

lemma fireAt_taskMap (s : Scheduler) (i now : Nat) :
    (fireAt s i now).taskMap = s.taskMap := by
  cases hj : getNth s.timers i with
  | none =>
    unfold fireAt
    rw [hj]
  | some t =>
    by_cases hcond : t.stopped = false ∧ t.fired = false ∧ t.deadline ≤ now
    · have hs : fireAt s i now = { s with timers := setFired s.timers i } := by
        unfold fireAt
        rw [hj]
        exact if_pos hcond
      rw [hs]
    · have hs : fireAt s i now = s := by
        unfold fireAt
        rw [hj]
        exact if_neg hcond
      rw [hs]

lemma foldAddTasks_taskMap_length (calls : List (Nat × Nat × Int)) (s : Scheduler)
    (hfresh : ∀ c ∈ calls, alookup s.taskMap c.2.2 = none)
    (hnod : (calls.map (fun c => c.2.2)).Nodup) :
    (foldAddTasks s calls).taskMap.length = s.taskMap.length + calls.length := by
  induction calls generalizing s with
  | nil => simp [foldAddTasks]
  | cons c rest ih =>
    obtain ⟨d, j, id⟩ := c
    simp only [List.map_cons, List.nodup_cons] at hnod
    have hid : alookup s.taskMap id = none := hfresh (d, j, id) (List.mem_cons_self _ _)
    have hmap : (s.AddTask d j id).taskMap = s.taskMap ++ [(id, s.timers.length)] := by
      simp [Scheduler.AddTask, hid, aset_of_lookup_none s.taskMap id _ hid]
    have hfresh' : ∀ c ∈ rest, alookup (s.AddTask d j id).taskMap c.2.2 = none := by
      intro c hc
      have hne : id ≠ c.2.2 := by
        intro heq
        exact hnod.1 (heq ▸ List.mem_map_of_mem (fun c => c.2.2) hc)
      have : (s.AddTask d j id).taskMap = aset s.taskMap id s.timers.length := by
        simp [Scheduler.AddTask, hid]
      rw [this, alookup_aset_ne s.taskMap id c.2.2 s.timers.length hne]
      exact hfresh c (List.mem_cons_of_mem _ hc)
    have := ih (s.AddTask d j id) hfresh' hnod.2
    simp only [foldAddTasks]
    rw [this, hmap]
    simp only [List.length_append, List.length_cons, List.length_nil]
    omega

/-- C8 counterexample: two AddTask calls that reuse the same id followed by
Stop return 1, not 2 — the claim that Stop returns N even when ids are
reused is false on the code. -/
theorem stop_count_reuse_counterexample :
    (((newScheduler.AddTask 5 0 0).AddTask 7 1 0).Stop).1 = 1 ∧ (1 : Nat) ≠ 2 := by
  refine ⟨rfl, by decide⟩

/-- C8 amended: Stop stops every timer the task map references, resets the
map to empty, and returns the number of entries in the map; after N
AddTask calls on a fresh scheduler with pairwise-distinct ids it returns
N, while a reused id merely replaces its timer and does not grow the map;
a fired timer is not dropped from the map (firing leaves the map alone),
so Stop counts it all the same. -/
theorem stop_counts_tasks (calls : List (Nat × Nat × Int)) (s : Scheduler) (id : Int)
    (i now : Nat) :
    ((calls.map (fun c => c.2.2)).Nodup →
      ((foldAddTasks newScheduler calls).Stop).1 = calls.length) ∧
    ((s.Stop).2.taskMap = []) ∧
    ((fireAt s i now).taskMap = s.taskMap) ∧
    (alookup s.taskMap id = some i → (∃ t, getNth s.timers i = some t) →
      stoppedAt ((s.Stop).2).timers i) := by
  refine ⟨?_, rfl, fireAt_taskMap s i now, ?_⟩
  · intro hnod
    have hlen := foldAddTasks_taskMap_length calls newScheduler (by intro c hc; rfl) hnod
    simp only [Scheduler.Stop]
    rw [hlen]
    simp [newScheduler]
  · intro hlook hrange
    exact stoppedAt_stopMapped_mem s.taskMap s.timers i
      (alookup_some_mem_snd s.taskMap id i hlook) hrange

/-- C8 witness: two adds under distinct ids give Stop 2, the map is
cleared, firing leaves the map alone, and the mapped timer of a one-task
scheduler is stopped by Stop. -/
theorem stop_counts_tasks_witness :
    ((((newScheduler.AddTask 5 0 0).AddTask 7 1 1).Stop).1 = 2) ∧
    (((newScheduler.AddTask 5 0 0).Stop).2.taskMap = []) ∧
    ((fireAt (newScheduler.AddTask 5 0 0) 0 6).taskMap =
      (newScheduler.AddTask 5 0 0).taskMap) ∧
    stoppedAt (((newScheduler.AddTask 5 0 0).Stop).2).timers 0 := by
  refine ⟨?_, ?_, ?_, ?_⟩
  · exact (stop_counts_tasks [(5, 0, 0), (7, 1, 1)] newScheduler 0 0 0).1 (by decide)
  · exact (stop_counts_tasks [] (newScheduler.AddTask 5 0 0) 0 0 0).2.1
  · exact (stop_counts_tasks [] (newScheduler.AddTask 5 0 0) 0 0 6).2.2.1
  · exact (stop_counts_tasks [] (newScheduler.AddTask 5 0 0) 0 0 0).2.2.2 (by decide)
      ⟨Timer.mk 5 0 false false, by decide⟩

/-! ## C6: the per-system message ring is bounded by 10 -/

lemma lastN_update {α : Type} (n : Nat) (l : List α) (a : α) :
    (if n < (lastN n l ++ [a]).length then (lastN n l ++ [a]).drop 1
     else lastN n l ++ [a]) = lastN n (l ++ [a]) := by
  unfold lastN
  have happlen : (l ++ [a]).length = l.length + 1 := by
    simp only [List.length_append, List.length_cons, List.length_nil]
  by_cases hle : n ≤ l.length
  · cases n with
    | zero =>
      have h1 : l.drop (l.length - 0) = [] := by
        rw [List.drop_eq_nil_iff]
        omega
      have h2 : (l ++ [a]).drop ((l ++ [a]).length - 0) = [] := by
        rw [List.drop_eq_nil_iff]
        omega
      rw [h1, h2]
      simp
    | succ m =>
      have hlen : (l.drop (l.length - (m + 1)) ++ [a]).length = (m + 1) + 1 := by
        simp only [List.length_append, List.length_drop, List.length_cons, List.length_nil]
        omega
      rw [hlen, if_pos (by omega)]
      have hd1 : 1 ≤ (l.drop (l.length - (m + 1))).length := by
        simp only [List.length_drop]
        omega
      rw [List.drop_append_of_le_length hd1, List.drop_drop]
      have hd2 : (l ++ [a]).length - (m + 1) ≤ l.length := by
        rw [happlen]
        omega
      rw [List.drop_append_of_le_length hd2]
      have heq : l.length - (m + 1) + 1 = (l ++ [a]).length - (m + 1) := by
        rw [happlen]
        omega
      rw [heq]
  · have h0 : l.length - n = 0 := by omega
    have h1 : (l ++ [a]).length - n = 0 := by
      rw [happlen]
      omega
    have hlen : (l.drop (l.length - n) ++ [a]).length = l.length + 1 := by
      simp only [List.length_append, List.length_drop, List.length_cons, List.length_nil]
      omega
    rw [hlen, if_neg (by omega), h0, h1]
    simp

lemma ringOf_addMessage_self (store : MsgStore) (now : Nat) (m : SystemMessage) :
    ringOf (addMessage store now m) m.system =
      (if maxMessages < (ringOf store m.system ++ [Message.mk now m.level m.system m.body]).length
       then (ringOf store m.system ++ [Message.mk now m.level m.system m.body]).drop 1
       else ringOf store m.system ++ [Message.mk now m.level m.system m.body]) := by
  unfold addMessage ringOf alookupD
  rw [alookup_aset_self]
  rfl

lemma ringOf_addMessage_ne (store : MsgStore) (now : Nat) (m : SystemMessage) (s : String)
    (h : m.system ≠ s) : ringOf (addMessage store now m) s = ringOf store s := by
  unfold addMessage ringOf alookupD
  rw [alookup_aset_ne _ _ _ _ h]

lemma entriesFor_cons (s : String) (now : Nat) (m : SystemMessage)
    (rest : List (Nat × SystemMessage)) :
    entriesFor s ((now, m) :: rest) =
      (if m.system = s then [Message.mk now m.level m.system m.body] else []) ++
        entriesFor s rest := by
  by_cases h : m.system = s <;> simp [entriesFor, h]

lemma ringOf_foldMessages (entries : List (Nat × SystemMessage)) (store : MsgStore)
    (hist : String → List Message)
    (hinv : ∀ s, ringOf store s = lastN maxMessages (hist s)) :
    ∀ s, ringOf (foldMessages store entries) s =
      lastN maxMessages (hist s ++ entriesFor s entries) := by
  induction entries generalizing store hist with
  | nil =>
    intro s
    simp [foldMessages, entriesFor, hinv s]
  | cons e rest ih =>
    obtain ⟨now, m⟩ := e
    intro s
    have hstep : ∀ s', ringOf (addMessage store now m) s' =
        lastN maxMessages (hist s' ++
          (if m.system = s' then [Message.mk now m.level m.system m.body] else [])) := by
      intro s'
      by_cases hs : m.system = s'
      · subst hs
        rw [if_pos rfl, ringOf_addMessage_self store now m, hinv m.system]
        exact lastN_update maxMessages (hist m.system) (Message.mk now m.level m.system m.body)
      · rw [if_neg hs, List.append_nil, ringOf_addMessage_ne store now m s' hs]
        exact hinv s'
    have := ih (addMessage store now m)
      (fun s' => hist s' ++
        (if m.system = s' then [Message.mk now m.level m.system m.body] else []))
      hstep s
    rw [entriesFor_cons]
    simpa [foldMessages, List.append_assoc] using this

/-- C6: folding any sequence of ingest events over the empty store, every
system's ring holds at most 10 messages and equals exactly the last 10 of
the messages addressed to it; in particular after more than 10 messages to
one system the ring is exactly the 10 most recent in arrival order. -/
theorem messenger_ring_bound (entries : List (Nat × SystemMessage)) (s : String) :
    (ringOf (foldMessages emptyStore entries) s).length ≤ 10 ∧
    ringOf (foldMessages emptyStore entries) s = lastN 10 (entriesFor s entries) ∧
    ((∀ e ∈ entries, e.2.system = s) → 10 < entries.length →
      ringOf (foldMessages emptyStore entries) s =
        (entries.map (fun e => Message.mk e.1 e.2.level e.2.system e.2.body)).drop
          (entries.length - 10) ∧
      (ringOf (foldMessages emptyStore entries) s).length = 10) := by
  have hchar : ringOf (foldMessages emptyStore entries) s =
      lastN 10 (entriesFor s entries) := by
    have := ringOf_foldMessages entries emptyStore (fun _ => []) (fun s' => rfl) s
    simpa [maxMessages] using this
  refine ⟨?_, hchar, ?_⟩
  · rw [hchar]
    unfold lastN
    simp [List.length_drop]
    omega
  · intro hall hlong
    have hfil : entriesFor s entries =
        entries.map (fun e => Message.mk e.1 e.2.level e.2.system e.2.body) := by
      unfold entriesFor
      rw [List.filter_eq_self.mpr]
      intro a ha
      exact decide_eq_true (hall a ha)
    have hlenf : (entriesFor s entries).length = entries.length := by
      rw [hfil, List.length_map]
    constructor
    · rw [hchar]
      unfold lastN
      rw [hlenf, hfil]
    · rw [hchar]
      unfold lastN
      simp [List.length_drop, hlenf]
      omega

/-- C6 witness: twelve messages from system X leave a ring of exactly the
last ten, in order. -/
theorem messenger_ring_bound_witness :
    ringOf (foldMessages emptyStore twelveEvents) "X" =
      (twelveEvents.map (fun e => Message.mk e.1 e.2.level e.2.system e.2.body)).drop
        (twelveEvents.length - 10) ∧
    (ringOf (foldMessages emptyStore twelveEvents) "X").length = 10 :=
  (messenger_ring_bound twelveEvents "X").2.2 (by decide) (by decide)
